import Mathlib

/-!
Shallow embedding of the backtesting engine in src/src/backtester.py
(class Backtester): portfolio state, stock trade execution, options entry
and daily valuation/settlement, previous-trading-day lookup, and the
rate-limited retrying decision client.

Modelling conventions: Python floats (money, prices, premiums, timestamps)
become rationals; dates compared via datetime.strptime become day ordinals
(Nat); Python strings stay String; a raised-and-uncaught Python exception
becomes an Except.error; Python None becomes Option.none.
-/

set_option autoImplicit false

namespace Backtester

/-- Python int(x) applied to a float: truncation toward zero. -/
def pyTrunc (q : ℚ) : ℤ := if 0 ≤ q then Int.floor q else -(Int.floor (-q))

/-- Python floor division x // y on floats, composed with int(); in Lean x / 0
is 0 where Python would raise ZeroDivisionError (the claims only use
nonzero divisors). -/
def pyFloorDiv (x y : ℚ) : ℤ := Int.floor (x / y)

/-- One open options position, as the dicts stored in portfolio["options"]
(lines 308-323, 344-350): exactly one of premium_paid / premium_received is
present, mirrored by the two Option fields. -/
structure OptionPosition where
  type : String
  strike : ℚ
  contracts : ℤ
  premium_paid : Option ℚ
  premium_received : Option ℚ
  expiry_date : ℕ
deriving DecidableEq, Repr

/-- self.portfolio (line 43): cash, stock share count, open options. -/
structure Portfolio where
  cash : ℚ
  stock : ℤ
  options : List OptionPosition
deriving DecidableEq, Repr

/-- One entry of self.options_trades: the trade_details dict after the
update call in the executing branch (lines 293-297, 328-333, 355-360);
cost holds the net_cost (spread) or cost (single) value. -/
structure TradeRecord where
  date : ℕ
  strategy : String
  price : ℚ
  type : String
  contracts : ℤ
  cost : ℚ
  expiry_date : ℕ
deriving DecidableEq, Repr

/-- Backtester.execute_trade (lines 227-249). Returns the executed quantity
together with the updated portfolio. -/
def execute_trade (action : String) (quantity : ℤ) (current_price : ℚ)
    (pf : Portfolio) : ℤ × Portfolio :=
  if action = "buy" ∧ 0 < quantity then
    let cost := quantity * current_price
    if cost ≤ pf.cash then
      (quantity, { pf with stock := pf.stock + quantity, cash := pf.cash - cost })
    else
      let max_quantity := pyFloorDiv pf.cash current_price
      if 0 < max_quantity then
        (max_quantity,
         { pf with stock := pf.stock + max_quantity,
                   cash := pf.cash - max_quantity * current_price })
      else (0, pf)
  else if action = "sell" ∧ 0 < quantity then
    let q := min quantity pf.stock
    if 0 < q then
      (q, { pf with cash := pf.cash + q * current_price, stock := pf.stock - q })
    else (0, pf)
  else (0, pf)

/-- The intrinsic-value formula of calculate_options_value (lines 261-264
and, identically, 270-273): the same expression is computed on both the
expired and the still-open branch of the loop. -/
def optionIntrinsic (current_price : ℚ) (p : OptionPosition) : ℚ :=
  if p.type = "call" then
    max 0 (current_price - p.strike) * 100 * (p.contracts : ℚ)
  else
    max 0 (p.strike - current_price) * 100 * (p.contracts : ℚ)

/-- Python list.remove(x) (line 278): drop the first element equal to x.
In the source x is always a member, so the not-found ValueError path is
unreachable and the no-op on an absent element is never exercised. -/
def removeFirst (l : List OptionPosition) (x : OptionPosition) : List OptionPosition :=
  match l with
  | [] => []
  | y :: ys => if y = x then ys else y :: removeFirst ys x

/-- The main loop of calculate_options_value (lines 256-274): walks the
open positions accumulating the running total, the expired_positions list,
and the cash credited at settlement. -/
def covLoop (current_price : ℚ) (current_date : ℕ) :
    List OptionPosition → ℚ → List OptionPosition → ℚ →
    ℚ × List OptionPosition × ℚ
  | [], total, expired, cash => (total, expired, cash)
  | p :: rest, total, expired, cash =>
    if p.expiry_date ≤ current_date then
      covLoop current_price current_date rest
        (total + optionIntrinsic current_price p)
        (expired ++ [p])
        (cash + optionIntrinsic current_price p)
    else
      covLoop current_price current_date rest
        (total + optionIntrinsic current_price p) expired cash

/-- Backtester.calculate_options_value (lines 251-280): returns the daily
total options value and the portfolio after settlement of expired
positions. -/
def calculate_options_value (current_price : ℚ) (current_date : ℕ)
    (pf : Portfolio) : ℚ × Portfolio :=
  let r := covLoop current_price current_date pf.options 0 [] pf.cash
  (r.1, { pf with cash := r.2.2, options := r.2.1.foldl removeFirst pf.options })

/-- Substring containment, modelling the Python in operator on strings (line 343). -/
def strContains (s pat : String) : Bool :=
  (List.range (s.length + 1)).any (fun i => (s.drop i).startsWith pat)

/-- Python str.split() with no argument: the maximal runs of non-space
characters, empty runs dropped. The accumulator carries the current token
reversed. -/
def pySplitTokens : List Char → List Char → List (List Char)
  | [], acc => if acc = [] then [] else [acc.reverse]
  | c :: rest, acc =>
    if c = ' ' then
      if acc = [] then pySplitTokens rest []
      else acc.reverse :: pySplitTokens rest []
    else pySplitTokens rest (c :: acc)

/-- The characters of a token before its first dash: str.split("-")[0]. -/
def beforeDash : List Char → List Char
  | [] => []
  | c :: rest => if c = '-' then [] else c :: beforeDash rest

/-- Python int() applied to a token with no surrounding whitespace: an
all-digit string parses to the number; anything else, the empty string
included, raises ValueError (none). (A leading + or - sign never survives
the preceding dash split in the source, so it is folded into the error
case.) -/
def pyIntDigits (cs : List Char) : Option ℕ :=
  if cs = [] then none
  else if cs.all (fun c => c.isDigit) then
    some (cs.foldl (fun n c => 10 * n + (c.toNat - 48)) 0)
  else none

/-- Python int(expiration.split()[0].split("-")[0]) (lines 304, 340): first
whitespace-separated token, then the part before the first dash, parsed as
a number. none models the IndexError/ValueError paths (whitespace-only
string, or a non-numeric fragment), which the surrounding except catches,
making the trade a no-op with no portfolio mutation. -/
def parseExpiryDays (s : String) : Option ℕ :=
  match pySplitTokens s.data [] with
  | [] => none
  | w :: _ => pyIntDigits (beforeDash w)

/-- One leg dict of a spread implementation (buy_leg / sell_leg). -/
structure OptionLeg where
  type : String
  strike : ℚ
  recommended_expiration : String
deriving DecidableEq, Repr

/-- Shape of strategy["implementation"] as dispatched on lines 299 and 335:
it has both buy_leg and sell_leg keys (a spread), or a strikes key (single
leg, carrying the recommended_strike and recommended_expiration fields the
branch reads), or neither (no trade). premium carries the single
premium.target_premium field that both spread legs read. -/
inductive StrategyImpl
  | spread (buy_leg sell_leg : OptionLeg) (target_premium : ℚ)
  | single (recommended_strike : ℚ) (target_premium : ℚ)
      (recommended_expiration : String)
  | other
deriving DecidableEq, Repr

/-- The strategy dict passed to execute_options_trade: its strategy name
string and its implementation dict. -/
structure Strategy where
  strategy : String
  impl : StrategyImpl
deriving DecidableEq, Repr

/-- contracts = min(5, int(cash / (premium * 100))) (lines 302 and 338);
Python / is true division and int() truncates toward zero. -/
def maxContracts (cash premium : ℚ) : ℤ := min 5 (pyTrunc (cash / (premium * 100)))

/-- Backtester.execute_options_trade (lines 282-368). Takes and returns the
self.options_trades audit list; result is (cost, portfolio, options_trades).
A none strategy models the not-a-dict guard of line 284. -/
def execute_options_trade (strategy : Option Strategy) (current_price : ℚ)
    (current_date : ℕ) (pf : Portfolio) (options_trades : List TradeRecord) :
    ℚ × Portfolio × List TradeRecord :=
  match strategy with
  | none => (0, pf, options_trades)
  | some strat =>
    match strat.impl with
    | .spread buy_leg sell_leg target_premium =>
      let buy_premium := target_premium
      let contracts := maxContracts pf.cash buy_premium
      if 0 < contracts then
        match parseExpiryDays buy_leg.recommended_expiration with
        | none => (0, pf, options_trades)
        | some expiry_days =>
          let expiry_date := current_date + expiry_days
          let buyPos : OptionPosition :=
            { type := buy_leg.type, strike := buy_leg.strike,
              contracts := contracts,
              premium_paid := some (buy_premium * 100 * (contracts : ℚ)),
              premium_received := none, expiry_date := expiry_date }
          let sellPos : OptionPosition :=
            { type := sell_leg.type, strike := sell_leg.strike,
              contracts := -contracts, premium_paid := none,
              premium_received := some (target_premium * 100 * (contracts : ℚ)),
              expiry_date := expiry_date }
          let cost := (buy_premium - target_premium) * 100 * (contracts : ℚ)
          let pf2 : Portfolio :=
            { pf with cash := pf.cash - cost,
                      options := pf.options ++ [buyPos, sellPos] }
          let record : TradeRecord :=
            { date := current_date, strategy := strat.strategy,
              price := current_price, type := "spread", contracts := contracts,
              cost := cost, expiry_date := expiry_date }
          if 0 < cost then (cost, pf2, options_trades ++ [record])
          else (cost, pf2, options_trades)
      else (0, pf, options_trades)
    | .single recommended_strike target_premium recommended_expiration =>
      let premium := target_premium
      let contracts := maxContracts pf.cash premium
      if 0 < contracts then
        match parseExpiryDays recommended_expiration with
        | none => (0, pf, options_trades)
        | some expiry_days =>
          let expiry_date := current_date + expiry_days
          let position_type :=
            if strContains strat.strategy.toLower ("call") then "call" else "put"
          let pos : OptionPosition :=
            { type := position_type, strike := recommended_strike,
              contracts := contracts,
              premium_paid := some (premium * 100 * (contracts : ℚ)),
              premium_received := none, expiry_date := expiry_date }
          let cost := premium * 100 * (contracts : ℚ)
          let pf2 : Portfolio :=
            { pf with cash := pf.cash - cost, options := pf.options ++ [pos] }
          let record : TradeRecord :=
            { date := current_date, strategy := strat.strategy,
              price := current_price, type := "single", contracts := contracts,
              cost := cost, expiry_date := expiry_date }
          if 0 < cost then (cost, pf2, options_trades ++ [record])
          else (cost, pf2, options_trades)
      else (0, pf, options_trades)
    | .other => (0, pf, options_trades)

/-- Backtester.get_previous_trading_day (lines 137-146), parametrised by the
trading-day schedule that nyse.schedule returns for the 10-day window ending
at the requested date (an external input, passed here as the list of session
day ordinals in calendar order). schedule.index[-2] is in range only when
the schedule has at least two entries; a one-entry schedule raises
IndexError. -/
def get_previous_trading_day (schedule : List ℕ) : Except String (Option ℕ) :=
  if schedule.isEmpty then Except.ok none
  else if 2 ≤ schedule.length then
    Except.ok (some (schedule.getD (schedule.length - 2) 0))
  else Except.error ("IndexError")

/-- Outcome of one call to self.agent inside the retry loop of
get_agent_decision (line 176): a normal return, an exception whose text
contains "AFC is enabled" (line 213), or any other exception. -/
inductive AgentOutcome
  | success
  | afcError
  | otherError
deriving DecidableEq, Repr

/-- What get_agent_decision hands back: the result of a successful agent
call (tagged with the loop iteration on which it happened), or the safe
default hold/quantity-0 decision of lines 210 and 224. The implicit Python
None return is modelled by Option.none around this type. -/
inductive GDReturn
  | agentResult (attempt : ℕ)
  | safeDefault
deriving DecidableEq, Repr

/-- Rate-limiter bookkeeping of the Backtester (lines 57-59) together with a
virtual clock and the trace of times at which agent calls are issued.
last_api_call = 0 encodes the falsy initial value that line 168 tests. -/
structure GDState where
  api_call_count : ℕ
  api_window_start : ℚ
  last_api_call : ℚ
  clock : ℚ
  callTimes : List ℚ
deriving DecidableEq, Repr

/-- The for attempt in range(max_retries) loop (lines 166-225). The first
argument lists the remaining iteration indices, so an empty tail means the
current iteration is the last (attempt == max_retries - 1); outcomes lists
the behaviour of each successive agent call, one consumed per iteration.
Falling out of the loop returns Python None, i.e. none. (The outcomes-
exhausted case is a model artifact; callers always supply one outcome per
iteration.) -/
def gdLoop : List ℕ → List AgentOutcome → GDState → Option GDReturn × GDState
  | [], _, st => (none, st)
  | attempt :: restAttempts, outcomes, st =>
    let t := if st.last_api_call ≠ 0 ∧ st.clock - st.last_api_call < 6 then
               st.last_api_call + 6
             else st.clock
    let st1 : GDState :=
      { st with clock := t, last_api_call := t,
                api_call_count := st.api_call_count + 1,
                callTimes := st.callTimes ++ [t] }
    match outcomes with
    | [] => (none, st1)
    | o :: restOutcomes =>
      match o with
      | .success => (some (.agentResult attempt), st1)
      | .afcError =>
        gdLoop restAttempts restOutcomes
          { st1 with clock := st1.clock + 60, api_call_count := 0,
                     api_window_start := st1.clock + 60 }
      | .otherError =>
        if restAttempts = [] then (some .safeDefault, st1)
        else
          gdLoop restAttempts restOutcomes
            { st1 with clock := st1.clock + 2 ^ attempt }

/-- Backtester.get_agent_decision (lines 148-225): fixed-window call-count
management, then the retry loop with minimum 6-second spacing. The field
clock of the state is the time.time() value at entry. -/
def get_agent_decision (outcomes : List AgentOutcome) (st : GDState) :
    Option GDReturn × GDState :=
  let current_time := st.clock
  let st1 := if 60 ≤ current_time - st.api_window_start then
               { st with api_call_count := 0, api_window_start := current_time }
             else st
  let st2 := if 8 ≤ st1.api_call_count then
               let wait_time := 60 - (current_time - st1.api_window_start)
               if 0 < wait_time then
                 { st1 with clock := current_time + wait_time,
                            api_call_count := 0,
                            api_window_start := current_time + wait_time }
               else st1
             else st1
  gdLoop [0, 1, 2] outcomes st2

/-- The rate-limiter state of a fresh Backtester, constructed at time t0
(lines 57-59): zero calls, window started at construction, no last call. -/
def gdInit (t0 : ℚ) : GDState :=
  { api_call_count := 0, api_window_start := t0, last_api_call := 0,
    clock := t0, callTimes := [] }

/-- Successive invocations of get_agent_decision, each succeeding on its
first agent call, at the given request times (the orchestrator never calls
in before the previous invocation finished, hence the max). -/
def runCalls (reqTimes : List ℚ) (st : GDState) : GDState :=
  match reqTimes with
  | [] => st
  | r :: rest =>
    runCalls rest
      (get_agent_decision [AgentOutcome.success]
        { st with clock := max st.clock r }).2

/-- Buy leg of a concrete bull call spread recommendation. -/
def blDemo : OptionLeg :=
  { type := "call", strike := 150, recommended_expiration := "30-45 DTE" }

/-- Sell leg of the same concrete spread recommendation. -/
def slDemo : OptionLeg :=
  { type := "call", strike := 100, recommended_expiration := "30-45 DTE" }

/-- A concrete spread strategy recommendation with target premium 1. -/
def spreadDemo : Strategy :=
  { strategy := "bull call spread", impl := .spread blDemo slDemo 1 }

/-- A fresh portfolio with 100 cash, no shares, no options. -/
def pfDemo : Portfolio := { cash := 100, stock := 0, options := [] }

/-- Request times of successive orchestrator calls used in the rate-limit
trace: seven spaced calls inside the first counted window, an eighth that
is pushed to the window boundary by the 6-second spacing rule, then eight
more as soon as the next window opens. -/
def reqDemo : List ℚ :=
  [100, 124, 130, 136, 142, 148, 154, 159, 166, 172, 178, 184, 190, 196, 202, 208]

/-- A rate-limiter state whose counter has just reached the cap. -/
def stDemo : GDState :=
  { api_call_count := 8, api_window_start := 100, last_api_call := 0,
    clock := 130, callTimes := [] }

theorem covLoop_eq (price : ℚ) (date : ℕ) (l : List OptionPosition)
    (total : ℚ) (expired : List OptionPosition) (cash : ℚ) :
    covLoop price date l total expired cash =
      (total + (l.map (optionIntrinsic price)).sum,
       expired ++ l.filter (fun p => p.expiry_date ≤ date),
       cash + ((l.filter (fun p => p.expiry_date ≤ date)).map
         (optionIntrinsic price)).sum) := by
  induction l generalizing total expired cash with
  | nil => simp [covLoop]
  | cons p rest ih =>
    simp only [covLoop]
    by_cases h : p.expiry_date ≤ date
    · rw [if_pos h, ih]
      simp [List.filter_cons, h, add_assoc]
    · rw [if_neg h, ih]
      simp [List.filter_cons, h, add_assoc]

theorem foldl_removeFirst_cons (x : OptionPosition) (ys : List OptionPosition)
    (hx : ∀ y ∈ ys, y ≠ x) (xs : List OptionPosition) :
    ys.foldl removeFirst (x :: xs) = x :: ys.foldl removeFirst xs := by
  induction ys generalizing xs with
  | nil => rfl
  | cons y ys ih =>
    have hyx : ¬(x = y) := fun h => hx y (List.mem_cons_self y ys) h.symm
    simp only [List.foldl_cons, removeFirst, if_neg hyx]
    exact ih (fun z hz => hx z (List.mem_cons_of_mem y hz)) (removeFirst xs y)

theorem foldl_removeFirst_filter (q : OptionPosition → Bool)
    (l : List OptionPosition) :
    (l.filter q).foldl removeFirst l = l.filter (fun x => !(q x)) := by
  induction l with
  | nil => rfl
  | cons x xs ih =>
    by_cases h : q x
    · rw [List.filter_cons_of_pos h, List.filter_cons_of_neg]
      · simp only [List.foldl_cons, removeFirst, if_pos rfl]
        exact ih
      · simp [h]
    · rw [List.filter_cons_of_neg h, List.filter_cons_of_pos]
      · rw [foldl_removeFirst_cons x (xs.filter q)
          (fun y hy => fun hyx => by
            have hq := List.of_mem_filter hy
            rw [hyx] at hq
            exact h hq) xs]
        rw [ih]
      · simp [h]

theorem calculate_options_value_eq (price : ℚ) (date : ℕ) (pf : Portfolio) :
    calculate_options_value price date pf =
      ((pf.options.map (optionIntrinsic price)).sum,
       { pf with
           cash := pf.cash + ((pf.options.filter
             (fun p => p.expiry_date ≤ date)).map (optionIntrinsic price)).sum,
           options := pf.options.filter
             (fun p => !(decide (p.expiry_date ≤ date))) }) := by
  unfold calculate_options_value
  rw [covLoop_eq]
  simp [foldl_removeFirst_filter]

/-- C2: on any day, calculate_options_value removes exactly the positions
whose expiry_date has been reached (keeping every not-yet-expired position),
credits cash once with the sum of their intrinsic values, computed as
max(0, price - strike) * 100 * contracts for a call and
max(0, strike - price) * 100 * contracts for a put, and the returned
options total sums the intrinsic value of all positions, the settled ones
included. -/
theorem c2_settlement_on_expiry (price : ℚ) (date : ℕ) (pf : Portfolio) :
    ((calculate_options_value price date pf).2.options
        = pf.options.filter (fun p => decide (date < p.expiry_date)))
    ∧ ((calculate_options_value price date pf).2.cash
        = pf.cash + ((pf.options.filter (fun p => p.expiry_date ≤ date)).map
            (fun p => if p.type = "call"
                      then max 0 (price - p.strike) * 100 * (p.contracts : ℚ)
                      else max 0 (p.strike - price) * 100 * (p.contracts : ℚ))).sum)
    ∧ ((calculate_options_value price date pf).1
        = (pf.options.map (optionIntrinsic price)).sum) := by
  rw [calculate_options_value_eq]
  refine ⟨?_, rfl, rfl⟩
  apply List.filter_congr
  intro p _
  rw [← decide_not]
  exact decide_eq_decide.mpr (by omega)

theorem maxContracts_demo : maxContracts (100 : ℚ) 1 = 1 := by
  have h : ((100 : ℚ) / (1 * 100)) = 1 := by norm_num
  rw [maxContracts, h]
  rw [show pyTrunc 1 = 1 by rw [pyTrunc]; norm_num]
  norm_num

theorem parseExpiryDays_demo : parseExpiryDays ("30-45 DTE") = some 30 := by
  decide

/-- Entering the concrete demo spread from 100 cash: one contract per leg,
zero net cost, no trade record. -/
theorem execute_spreadDemo_eval :
    execute_options_trade (some spreadDemo) 100 0 pfDemo []
      = (0,
         { cash := 100, stock := 0, options :=
            [{ type := "call", strike := 150, contracts := 1,
               premium_paid := some 100, premium_received := none,
               expiry_date := 30 },
             { type := "call", strike := 100, contracts := -1,
               premium_paid := none, premium_received := some 100,
               expiry_date := 30 }] },
         []) := by
  simp only [execute_options_trade, spreadDemo, blDemo, slDemo, pfDemo,
    maxContracts_demo, parseExpiryDays_demo]
  norm_num

/-- C1 counterexample: from initial capital 100, entering the recommended
call spread (an in-scope execute_options_trade step) and then settling it
at expiry with calculate_options_value leaves the portfolio with cash
-4900 < 0: the short leg settles at intrinsic value -10000 while the long
leg settles at 5000. -/
theorem c1_counterexample_cash_negative :
    ((calculate_options_value 200 30
        (execute_options_trade (some spreadDemo) 100 0 pfDemo []).2.1).2).cash < 0 := by
  rw [execute_spreadDemo_eval, calculate_options_value_eq]
  norm_num [optionIntrinsic, List.filter]

/-- C6 counterexample: the same concrete spread has computed contract count
1 > 0 (its two legs are entered, hence the options list grows to length 2),
yet no TradeRecord is appended: the net cost is 0 because both legs read the
same target premium, and records are only appended when the cost is
positive. -/
theorem c6_counterexample_no_trade_record :
    (execute_options_trade (some spreadDemo) 100 0 pfDemo []).2.2 = []
    ∧ (execute_options_trade (some spreadDemo) 100 0 pfDemo []).2.1.options.length = 2 := by
  rw [execute_spreadDemo_eval]
  exact ⟨rfl, rfl⟩

set_option maxRecDepth 100000 in
/-- C8 counterexample: with the fixed-window counter, a concrete sequence of
request times produces 10 agent calls inside the rolling 60-second window
[154, 214): the claimed rolling-window cap of 8 is violated. -/
theorem c8_counterexample_rolling_window :
    8 < ((runCalls reqDemo (gdInit 0)).callTimes.filter
      (fun t => 154 ≤ t ∧ t < 154 + 60)).length := by
  norm_num [reqDemo, runCalls, get_agent_decision, gdLoop, gdInit, List.filter]

/-- C5: evaluating the retry loop shows the code bug. When the agent raises
an AFC rate-limit error on all three loop iterations, get_agent_decision
returns Python None rather than the safe default, because the continue of
the AFC branch consumes a for-loop iteration. And after one AFC error
followed by other errors, only three agent calls are ever issued before the
function gives up with the safe default: the AFC retry does count against
the 3-attempt budget. -/
theorem c5_afc_exhausts_budget_returns_none :
    (get_agent_decision [AgentOutcome.afcError, AgentOutcome.afcError,
        AgentOutcome.afcError] (gdInit 100)).1 = none
    ∧ (get_agent_decision [AgentOutcome.afcError, AgentOutcome.otherError,
        AgentOutcome.otherError, AgentOutcome.otherError] (gdInit 100)).1
        = some GDReturn.safeDefault
    ∧ (get_agent_decision [AgentOutcome.afcError, AgentOutcome.otherError,
        AgentOutcome.otherError, AgentOutcome.otherError] (gdInit 100)).2.callTimes.length
        = 3 := by
  norm_num [get_agent_decision, gdLoop, gdInit]

/-- C9 counterexample: when the 10-day lookback window yields a schedule
with exactly one trading session, the second-to-last lookup raises
IndexError instead of returning None. -/
theorem c9_counterexample_singleton_schedule :
    get_previous_trading_day [5] = Except.error ("IndexError") := by
  rfl

/-- C9 (amended): get_previous_trading_day returns None exactly when the
window yields no trading session at all; with at least two sessions it
returns the second-to-last entry of the schedule (the trading day strictly
before the date, when the date itself is a trading session); but with
exactly one session it raises IndexError rather than returning None. -/
theorem c9_previous_trading_day (schedule : List ℕ) :
    (schedule = [] → get_previous_trading_day schedule = Except.ok none)
    ∧ (2 ≤ schedule.length →
        get_previous_trading_day schedule
          = Except.ok (some (schedule.getD (schedule.length - 2) 0)))
    ∧ (schedule.length = 1 →
        get_previous_trading_day schedule = Except.error ("IndexError")) := by
  refine ⟨?_, ?_, ?_⟩
  · intro h
    subst h
    rfl
  · intro h
    have hne : ¬schedule.isEmpty = true := by
      cases schedule with
      | nil => simp at h
      | cons a l => simp [List.isEmpty]
    simp [get_previous_trading_day, hne, h]
  · intro h
    have hne : ¬schedule.isEmpty = true := by
      cases schedule with
      | nil => simp at h
      | cons a l => simp [List.isEmpty]
    have h2 : ¬2 ≤ schedule.length := by omega
    simp [get_previous_trading_day, hne, h2]

/-- C9 witness: on a two-session schedule the function returns the
second-to-last session. -/
theorem c9_previous_trading_day_witness :
    get_previous_trading_day [3, 4] = Except.ok (some 3) := by
  have h := (c9_previous_trading_day [3, 4]).2.1 (by decide)
  simpa using h

/-- C10: execute_trade never touches the options list, whatever the action,
quantity and price; and for the action hold (indeed for any action other
than buy and sell) or a non-positive quantity it changes nothing and
returns 0. -/
theorem c10_execute_trade_frame (action : String) (quantity : ℤ) (price : ℚ)
    (pf : Portfolio) :
    (execute_trade action quantity price pf).2.options = pf.options
    ∧ (action = "hold" ∨ quantity ≤ 0 →
        execute_trade action quantity price pf = (0, pf)) := by
  constructor
  · simp only [execute_trade]
    split_ifs <;> rfl
  · rintro (h | h)
    · subst h
      simp [execute_trade]
    · have hq : ¬0 < quantity := by omega
      simp [execute_trade, hq]

/-- C10 witness: a hold action at a concrete portfolio is a no-op. -/
theorem c10_execute_trade_frame_witness :
    (execute_trade ("hold") 5 10 pfDemo).2.options = pfDemo.options
    ∧ execute_trade ("hold") 5 10 pfDemo = (0, pfDemo) :=
  ⟨(c10_execute_trade_frame ("hold") 5 10 pfDemo).1,
   (c10_execute_trade_frame ("hold") 5 10 pfDemo).2 (Or.inl rfl)⟩

theorem pyTrunc_le_self {q : ℚ} (h : 0 ≤ q) : (pyTrunc q : ℚ) ≤ q := by
  rw [pyTrunc, if_pos h]
  exact Int.floor_le q

theorem pyTrunc_nonpos {q : ℚ} (h : q ≤ 0) : pyTrunc q ≤ 0 := by
  rw [pyTrunc]
  split_ifs with h0
  · have hq0 : q = 0 := le_antisymm h h0
    simp [hq0]
  · have h1 : (0 : ℚ) ≤ -q := by linarith
    have h2 : 0 ≤ Int.floor (-q) := Int.floor_nonneg.mpr h1
    omega

theorem execute_trade_cash_nonneg (action : String) (quantity : ℤ)
    (price : ℚ) (pf : Portfolio) (hc : 0 ≤ pf.cash) (hp : 0 ≤ price) :
    0 ≤ (execute_trade action quantity price pf).2.cash := by
  simp only [execute_trade]
  split_ifs with h1 h2 h3 h4 h5
  · dsimp only
    linarith
  · dsimp only
    have hpne : price ≠ 0 := by
      intro h0
      rw [h0] at h3
      simp [pyFloorDiv] at h3
    have hppos : 0 < price := lt_of_le_of_ne hp (Ne.symm hpne)
    have hfl : (pyFloorDiv pf.cash price : ℚ) ≤ pf.cash / price :=
      Int.floor_le _
    have h6 : (pyFloorDiv pf.cash price : ℚ) * price ≤ (pf.cash / price) * price :=
      mul_le_mul_of_nonneg_right hfl (le_of_lt hppos)
    rw [div_mul_cancel₀ _ hpne] at h6
    linarith
  · exact hc
  · dsimp only
    have h6 : (0 : ℚ) ≤ ((min quantity pf.stock : ℤ) : ℚ) * price :=
      mul_nonneg (by exact_mod_cast le_of_lt h5) hp
    linarith
  · exact hc
  · exact hc

theorem maxContracts_cost_le_cash {cash premium : ℚ} (hc : 0 ≤ cash)
    (h : 0 < maxContracts cash premium) :
    premium * 100 * (maxContracts cash premium : ℚ) ≤ cash := by
  have hppos : 0 < premium := by
    by_contra hnp
    push_neg at hnp
    have hnc : maxContracts cash premium ≤ 0 := by
      rcases lt_or_eq_of_le hnp with hlt | heq
      · have hple : premium * 100 < 0 := by nlinarith
        have hdiv : cash / (premium * 100) ≤ 0 :=
          div_nonpos_iff.mpr (Or.inl ⟨hc, le_of_lt hple⟩)
        have := pyTrunc_nonpos hdiv
        rw [maxContracts]
        omega
      · rw [maxContracts, heq]
        norm_num [pyTrunc]
    omega
  have hpm : (0 : ℚ) < premium * 100 := by nlinarith
  have hq : (0 : ℚ) ≤ cash / (premium * 100) := div_nonneg hc (le_of_lt hpm)
  have h1 : (maxContracts cash premium : ℚ) ≤ cash / (premium * 100) := by
    have h2 : maxContracts cash premium ≤ pyTrunc (cash / (premium * 100)) := by
      rw [maxContracts]
      exact min_le_right _ _
    calc (maxContracts cash premium : ℚ)
        ≤ (pyTrunc (cash / (premium * 100)) : ℚ) := by exact_mod_cast h2
      _ ≤ cash / (premium * 100) := pyTrunc_le_self hq
  have h3 : (maxContracts cash premium : ℚ) * (premium * 100)
      ≤ (cash / (premium * 100)) * (premium * 100) :=
    mul_le_mul_of_nonneg_right h1 (le_of_lt hpm)
  rw [div_mul_cancel₀ _ (ne_of_gt hpm)] at h3
  linarith

theorem execute_options_trade_cash_nonneg (strategy : Option Strategy)
    (price : ℚ) (date : ℕ) (pf : Portfolio) (tr : List TradeRecord)
    (hc : 0 ≤ pf.cash) :
    0 ≤ (execute_options_trade strategy price date pf tr).2.1.cash := by
  rcases strategy with _ | ⟨name, impl⟩
  · exact hc
  rcases impl with ⟨bl, sl, tp⟩ | ⟨rs, tp, re⟩ | _
  · have hcost : (tp - tp) * 100 * ((maxContracts pf.cash tp : ℤ) : ℚ) = 0 := by
      ring
    by_cases hcon : 0 < maxContracts pf.cash tp
    · cases hpe : parseExpiryDays bl.recommended_expiration with
      | none => simp [execute_options_trade, hcon, hpe, hc]
      | some d =>
        simp [execute_options_trade, hcon, hpe, hcost]
        exact hc
    · simp [execute_options_trade, hcon, hc]
  · by_cases hcon : 0 < maxContracts pf.cash tp
    · cases hpe : parseExpiryDays re with
      | none => simp [execute_options_trade, hcon, hpe, hc]
      | some d =>
        have hle := maxContracts_cost_le_cash hc hcon
        by_cases hcp : 0 < tp * 100 * ((maxContracts pf.cash tp : ℤ) : ℚ)
        · simp [execute_options_trade, hcon, hpe, hcp]
          linarith
        · simp [execute_options_trade, hcon, hpe, hcp]
          linarith
    · simp [execute_options_trade, hcon, hc]
  · simp [execute_options_trade, hc]

theorem spread_branch_eval (name : String) (bl sl : OptionLeg) (tp : ℚ)
    (price : ℚ) (date : ℕ) (pf : Portfolio) (tr : List TradeRecord) :
    (execute_options_trade (some { strategy := name, impl := .spread bl sl tp })
        price date pf tr).1 = 0
    ∧ (execute_options_trade (some { strategy := name, impl := .spread bl sl tp })
        price date pf tr).2.1.cash = pf.cash
    ∧ (execute_options_trade (some { strategy := name, impl := .spread bl sl tp })
        price date pf tr).2.2 = tr := by
  have hcost : (tp - tp) * 100 * ((maxContracts pf.cash tp : ℤ) : ℚ) = 0 := by
    ring
  by_cases hcon : 0 < maxContracts pf.cash tp
  · cases hpe : parseExpiryDays bl.recommended_expiration with
    | none => simp [execute_options_trade, hcon, hpe]
    | some d => simp [execute_options_trade, hcon, hpe, hcost]
  · simp [execute_options_trade, hcon]

/-- C6 (amended): the cash debited for a spread entry is the net cost
(buy_premium - sell_premium) * 100 * contracts, which is always 0 because
both legs read the same premium.target_premium field; and because a
TradeRecord is appended only when the cost is positive, no spread entry
ever appends a TradeRecord: the options trade list is returned unchanged. -/
theorem c6_spread_zero_cost_no_record (name : String) (bl sl : OptionLeg)
    (tp : ℚ) (price : ℚ) (date : ℕ) (pf : Portfolio) (tr : List TradeRecord) :
    (execute_options_trade (some { strategy := name, impl := .spread bl sl tp })
        price date pf tr).1 = 0
    ∧ (execute_options_trade (some { strategy := name, impl := .spread bl sl tp })
        price date pf tr).2.1.cash = pf.cash
    ∧ (execute_options_trade (some { strategy := name, impl := .spread bl sl tp })
        price date pf tr).2.2 = tr :=
  spread_branch_eval name bl sl tp price date pf tr

/-- C1 (amended): starting from nonnegative cash and a nonnegative price,
cash stays nonnegative after any execute_trade call and after any
execute_options_trade call; the daily revaluation calculate_options_value
also preserves nonnegative cash provided the portfolio holds no short
(negative-contract) option leg. (The short legs created by spread entries
break the unconditional invariant, as the counterexample shows.) -/
theorem c1_cash_nonneg_amended (action : String) (quantity : ℤ) (price : ℚ)
    (strategy : Option Strategy) (date : ℕ) (pf : Portfolio)
    (tr : List TradeRecord) (hc : 0 ≤ pf.cash) (hp : 0 ≤ price) :
    0 ≤ (execute_trade action quantity price pf).2.cash
    ∧ 0 ≤ (execute_options_trade strategy price date pf tr).2.1.cash
    ∧ ((∀ p ∈ pf.options, 0 ≤ p.contracts) →
        0 ≤ (calculate_options_value price date pf).2.cash) := by
  refine ⟨execute_trade_cash_nonneg action quantity price pf hc hp,
          execute_options_trade_cash_nonneg strategy price date pf tr hc, ?_⟩
  intro hpos
  rw [calculate_options_value_eq]
  dsimp only
  have hsum : 0 ≤ ((pf.options.filter (fun p => p.expiry_date ≤ date)).map
      (optionIntrinsic price)).sum := by
    apply List.sum_nonneg
    intro x hx
    obtain ⟨p, hpmem, rfl⟩ := List.mem_map.mp hx
    have hpm : p ∈ pf.options := List.mem_of_mem_filter hpmem
    have hcn : 0 ≤ p.contracts := hpos p hpm
    have hcq : (0 : ℚ) ≤ (p.contracts : ℚ) := by exact_mod_cast hcn
    rw [optionIntrinsic]
    split_ifs
    · exact mul_nonneg (mul_nonneg (le_max_left _ _) (by norm_num)) hcq
    · exact mul_nonneg (mul_nonneg (le_max_left _ _) (by norm_num)) hcq
  linarith

/-- C1 witness: the amended invariant at a concrete buy, a concrete spread
entry, and a concrete short-free revaluation. -/
theorem c1_cash_nonneg_amended_witness :
    0 ≤ (execute_trade ("buy") 3 2 pfDemo).2.cash
    ∧ 0 ≤ (execute_options_trade (some spreadDemo) 2 0 pfDemo []).2.1.cash
    ∧ 0 ≤ (calculate_options_value 2 0 pfDemo).2.cash := by
  have h := c1_cash_nonneg_amended ("buy") 3 2 (some spreadDemo) 0 pfDemo []
    (by norm_num [pfDemo]) (by norm_num)
  exact ⟨h.1, h.2.1, h.2.2 (by simp [pfDemo])⟩

/-- C3: for a buy with positive quantity and price from a portfolio with
nonnegative cash (the documented portfolio invariant), execute_trade
executes the full quantity when it is affordable and exactly
floor(cash / price) shares otherwise, never more than requested; the cost
of the executed quantity is deducted from cash, the executed quantity is
added to the share count and returned. -/
theorem c3_buy_caps_to_cash (quantity : ℤ) (price : ℚ) (pf : Portfolio)
    (hq : 0 < quantity) (hp : 0 < price) (hc : 0 ≤ pf.cash) :
    (if (quantity : ℚ) * price ≤ pf.cash then quantity
     else pyFloorDiv pf.cash price) ≤ quantity
    ∧ execute_trade ("buy") quantity price pf
      = (if (quantity : ℚ) * price ≤ pf.cash then quantity
         else pyFloorDiv pf.cash price,
         { pf with
             stock := pf.stock +
               (if (quantity : ℚ) * price ≤ pf.cash then quantity
                else pyFloorDiv pf.cash price),
             cash := pf.cash -
               ((if (quantity : ℚ) * price ≤ pf.cash then quantity
                 else pyFloorDiv pf.cash price) : ℚ) * price }) := by
  by_cases hfull : (quantity : ℚ) * price ≤ pf.cash
  · simp only [if_pos hfull]
    exact ⟨le_refl _, by simp [execute_trade, hq, hfull]⟩
  · simp only [if_neg hfull]
    have hfl : (pyFloorDiv pf.cash price : ℚ) ≤ pf.cash / price :=
      Int.floor_le _
    have hflt : pyFloorDiv pf.cash price < quantity := by
      have hdq : pf.cash / price < (quantity : ℚ) := by
        rw [div_lt_iff₀ hp]
        push_neg at hfull
        linarith
      exact_mod_cast lt_of_le_of_lt hfl hdq
    refine ⟨le_of_lt hflt, ?_⟩
    by_cases hpos : 0 < pyFloorDiv pf.cash price
    · simp [execute_trade, hq, hfull, hpos]
    · have h0 : pyFloorDiv pf.cash price = 0 := by
        have hnn : 0 ≤ pyFloorDiv pf.cash price :=
          Int.floor_nonneg.mpr (div_nonneg hc (le_of_lt hp))
        omega
      rw [h0]
      simp [execute_trade, hq, hfull, h0]

/-- C3 witness: buying 10 shares at price 7 with 50 cash executes exactly
floor(50 / 7) = 7 shares, leaving 1 cash. -/
theorem c3_buy_caps_to_cash_witness :
    execute_trade ("buy") 10 7 { cash := 50, stock := 0, options := [] }
      = (7, { cash := 1, stock := 7, options := [] }) := by
  have h := (c3_buy_caps_to_cash 10 7 { cash := 50, stock := 0, options := [] }
      (by norm_num) (by norm_num) (by norm_num)).2
  have hfd : pyFloorDiv (50 : ℚ) 7 = 7 := by
    rw [pyFloorDiv]
    norm_num
  rw [h]
  norm_num [hfd]

/-- C4: for a sell with positive quantity from a portfolio with a
nonnegative share count (the documented portfolio invariant), execute_trade
executes min(quantity, shares held) shares, credits the proceeds to cash,
subtracts the executed quantity from the share count and returns it; if at
least the held quantity was requested the holdings are left at exactly 0. -/
theorem c4_sell_caps_to_holdings (quantity : ℤ) (price : ℚ) (pf : Portfolio)
    (hq : 0 < quantity) (hs : 0 ≤ pf.stock) :
    execute_trade ("sell") quantity price pf
      = (min quantity pf.stock,
         { pf with
             cash := pf.cash + ((min quantity pf.stock : ℤ) : ℚ) * price,
             stock := pf.stock - min quantity pf.stock })
    ∧ (pf.stock ≤ quantity →
        (execute_trade ("sell") quantity price pf).2.stock = 0) := by
  have hmain : execute_trade ("sell") quantity price pf
      = (min quantity pf.stock,
         { pf with
             cash := pf.cash + ((min quantity pf.stock : ℤ) : ℚ) * price,
             stock := pf.stock - min quantity pf.stock }) := by
    by_cases hq0 : 0 < min quantity pf.stock
    · simp [execute_trade, hq, hq0]
    · have h0 : min quantity pf.stock = 0 :=
        le_antisymm (not_lt.mp hq0) (le_min (le_of_lt hq) hs)
      rw [h0]
      simp [execute_trade, hq, h0]
  refine ⟨hmain, fun hle => ?_⟩
  rw [hmain]
  dsimp only
  rw [min_eq_right hle]
  exact sub_self _

/-- C4 witness: selling 10 shares while holding 4 executes exactly 4 and
leaves 0 shares. -/
theorem c4_sell_caps_to_holdings_witness :
    execute_trade ("sell") 10 3 { cash := 20, stock := 4, options := [] }
      = (4, { cash := 32, stock := 0, options := [] }) := by
  have h := (c4_sell_caps_to_holdings 10 3 { cash := 20, stock := 4, options := [] }
      (by norm_num) (by norm_num)).1
  rw [h]
  norm_num

/-- C7: whenever the computed contract count of a spread recommendation is
positive (and its expiration string parses), entry appends exactly two
OptionPosition records: the long buy leg with the positive contract count
and the short sell leg with the negated count, both with the same expiry
date current_date + parsed holding days. -/
theorem c7_spread_appends_two_legs (name : String) (bl sl : OptionLeg)
    (tp price : ℚ) (date : ℕ) (pf : Portfolio) (tr : List TradeRecord)
    (d : ℕ) (hcon : 0 < maxContracts pf.cash tp)
    (hpe : parseExpiryDays bl.recommended_expiration = some d) :
    (execute_options_trade (some { strategy := name, impl := .spread bl sl tp })
        price date pf tr).2.1.options
      = pf.options ++
        [{ type := bl.type, strike := bl.strike,
           contracts := maxContracts pf.cash tp,
           premium_paid := some (tp * 100 * ((maxContracts pf.cash tp : ℤ) : ℚ)),
           premium_received := none, expiry_date := date + d },
         { type := sl.type, strike := sl.strike,
           contracts := -maxContracts pf.cash tp,
           premium_paid := none,
           premium_received := some (tp * 100 * ((maxContracts pf.cash tp : ℤ) : ℚ)),
           expiry_date := date + d }] := by
  have hcost : (tp - tp) * 100 * ((maxContracts pf.cash tp : ℤ) : ℚ) = 0 := by
    ring
  simp [execute_options_trade, hcon, hpe, hcost]

/-- C7 witness: the concrete demo spread enters a long 1-contract leg and a
short -1-contract leg, both expiring on day 30. -/
theorem c7_spread_appends_two_legs_witness :
    (execute_options_trade (some spreadDemo) 100 0 pfDemo []).2.1.options
      = [{ type := "call", strike := 150, contracts := 1,
           premium_paid := some 100, premium_received := none,
           expiry_date := 30 },
         { type := "call", strike := 100, contracts := -1,
           premium_paid := none, premium_received := some 100,
           expiry_date := 30 }] := by
  have h := c7_spread_appends_two_legs ("bull call spread") blDemo slDemo 1
      100 0 pfDemo [] 30 (by simp [pfDemo, maxContracts_demo]) (by decide)
  rw [show spreadDemo
      = { strategy := "bull call spread", impl := .spread blDemo slDemo 1 }
      from rfl, h]
  simp [pfDemo, blDemo, slDemo, maxContracts_demo]

/-- C8 (amended): the cap is a fixed-window counter, not a rolling-window
bound: an invocation that issues a single agent call keeps the counter at
most 8, and when the counter has already reached 8 inside the current
60-second window the call is blocked until the window resets, so the agent
call is issued no earlier than window_start + 60. (A rolling 60-second
window may still contain up to 10 calls, as the counterexample shows.) -/
theorem c8_fixed_window_cap (st : GDState) (hcount : st.api_call_count ≤ 8) :
    (get_agent_decision [AgentOutcome.success] st).2.api_call_count ≤ 8
    ∧ (8 ≤ st.api_call_count → st.clock - st.api_window_start < 60 →
        st.api_window_start + 60
          ≤ (get_agent_decision [AgentOutcome.success] st).2.last_api_call) := by
  constructor
  · by_cases h1 : 60 ≤ st.clock - st.api_window_start
    · simp [get_agent_decision, gdLoop, h1]
    · by_cases h2 : 8 ≤ st.api_call_count
      · have hw : (0 : ℚ) < 60 - (st.clock - st.api_window_start) := by
          have := not_le.mp h1
          linarith
        simp [get_agent_decision, gdLoop, h1, h2, hw]
      · simp [get_agent_decision, gdLoop, h1, h2]
        omega
  · intro h8 hlt
    have h1 : ¬(60 ≤ st.clock - st.api_window_start) := by linarith
    have hw : (0 : ℚ) < 60 - (st.clock - st.api_window_start) := by linarith
    simp [get_agent_decision, gdLoop, h1, h8, hw]
    split_ifs with hsp
    · linarith [hsp.2]
    · linarith

/-- C8 witness: at a concrete capped state the counter stays at most 8 and
the call is delayed to the window reset. -/
theorem c8_fixed_window_cap_witness :
    (get_agent_decision [AgentOutcome.success] stDemo).2.api_call_count ≤ 8
    ∧ stDemo.api_window_start + 60
        ≤ (get_agent_decision [AgentOutcome.success] stDemo).2.last_api_call :=
  ⟨(c8_fixed_window_cap stDemo (by norm_num [stDemo])).1,
   (c8_fixed_window_cap stDemo (by norm_num [stDemo])).2
     (by norm_num [stDemo]) (by norm_num [stDemo])⟩

end Backtester
